import Mathlib

/-!
Shallow embedding of the dating-suggestion quote service (src/main.py).

State components of the running process:
  * the bounded quote history, a Python list of Quote models;
  * the APScheduler job table, mutated only by set_schedule and startup.

HTTP handlers are embedded as pure functions from the relevant state
component (plus the inputs the environment supplies at call time: the
randomly selected prompt index, the outcome of the outbound HTTP call,
the randomly selected fallback index, and the wall-clock reading used
for the timestamp) to the updated state and the response value.
-/

set_option linter.unusedVariables false

namespace DatingApp

/-- A stored quote: `class Quote(BaseModel)` with fields `quote : str`
and `timestamp : str`. -/
structure Quote where
  quote : String
  timestamp : String
  deriving Repr, DecidableEq

/-- The seven user prompts in `generate_quote` (main.py lines 41-49);
`random.choice(prompts)` picks one. -/
def prompts : List String :=
  [ "Give me a creative and unique dating suggestion that\x27s not commonly mentioned.",
    "Suggest an unusual but fun dating activity that creates memorable moments.",
    "What\x27s a romantic dating idea that doesn\x27t cost much money?",
    "Share a dating suggestion that involves nature or outdoors.",
    "Provide a dating tip for couples looking to spice up their relationship.",
    "What\x27s a good first date idea that helps people connect genuinely?",
    "Suggest a date activity that involves learning something new together." ]

/-- The five fallback quotes in the `except` branch of `generate_quote`
(main.py lines 82-88). -/
def fallback_quotes : List String :=
  [ "Try a sunset picnic with your favorite foods and a great view - simple but memorable.",
    "Cook a meal together where each person is responsible for different courses - it\x27s collaborative and revealing.",
    "Explore a museum after hours during special evening events for a unique and intimate experience.",
    "Take a dance class together - the physical connection and shared learning create instant chemistry.",
    "Go stargazing in a remote location with hot chocolate and cozy blankets for meaningful conversation." ]

/-- Outcome of the outbound HTTP POST to the generation endpoint, as seen
from inside the `try` block: either a 2xx response whose JSON body carried
a string at `choices[0].message.content` (success), or any raised
exception (network error, timeout, `raise_for_status` on non-2xx, JSON
decoding error, missing key or index on the response shape). -/
inductive ApiOutcome where
  | success (content : String)
  | failure (msg : String)
  deriving Repr, DecidableEq

/-- Embedding of `generate_quote` (main.py lines 32-89).  `pidx` is the
index chosen by `random.choice(prompts)`, `call` is the environment
response to the POST carrying the selected prompt, `fidx` is the index
chosen by `random.choice(fallback_quotes)` in the except branch.  On
success the code returns the extracted content stripped of surrounding
whitespace; on any exception it returns a fallback quote. -/
def generate_quote (pidx : Fin prompts.length) (call : String → ApiOutcome)
    (fidx : Fin fallback_quotes.length) : String :=
  match call (prompts.get pidx) with
  | .success content => content.trim
  | .failure _ => fallback_quotes.get fidx

/-- Embedding of `store_daily_quote` (main.py lines 91-104): generate a
quote, build a `Quote` with the current wall clock reading `now`, append
it to the history, and pop index 0 if the length now exceeds 30.
Returns the new history and the quote that the function returns. -/
def store_daily_quote (h : List Quote) (pidx : Fin prompts.length)
    (call : String → ApiOutcome) (fidx : Fin fallback_quotes.length)
    (now : String) : List Quote × Quote :=
  let quote_text := generate_quote pidx call fidx
  let q : Quote := ⟨quote_text, now⟩
  let h2 := h ++ [q]
  let h3 := if h2.length > 30 then h2.drop 1 else h2
  (h3, q)

/-- Embedding of the `GET /quotes` handler `get_quotes` (main.py lines
106-109): returns the whole history and leaves the state untouched. -/
def get_quotes (h : List Quote) : List Quote × List Quote :=
  (h, h)

/-- Embedding of the `GET /latest` handler `get_latest_quote` (main.py
lines 111-119): if the history is empty, generate one quote and append
it; then return the final element.  The tail access
`quotes_history[-1]` is embedded as `getLast?`, whose `none` case
corresponds to the `IndexError` a tail access on an empty list would
raise. -/
def get_latest_quote (h : List Quote) (pidx : Fin prompts.length)
    (call : String → ApiOutcome) (fidx : Fin fallback_quotes.length)
    (now : String) : List Quote × Option Quote :=
  let h2 :=
    if h.isEmpty then h ++ [⟨generate_quote pidx call fidx, now⟩]
    else h
  (h2, h2.getLast?)

/-- One generation context: everything the environment supplies to a
single run of `store_daily_quote`. -/
structure GenCtx where
  pidx : Fin prompts.length
  call : String → ApiOutcome
  fidx : Fin fallback_quotes.length
  now : String

/-- The entry a single generate-and-store operation appends. -/
def genEntry (c : GenCtx) : Quote :=
  ⟨generate_quote c.pidx c.call c.fidx, c.now⟩

/-- Running a sequence of generate-and-store operations from the empty
history. -/
def runStore (ctxs : List GenCtx) : List Quote :=
  ctxs.foldl (fun h c => (store_daily_quote h c.pidx c.call c.fidx c.now).1) []

/-- One APScheduler job as this service creates it: `add_job` is always
called with `id="daily_quote"` and a `CronTrigger(hour=..., minute=...)`;
the scheduler assigns the job a next fire time computed from the trigger
and the wall clock, read back by `get_schedule` as `job.next_run_time`. -/
structure Job where
  id : String
  hour : Int
  minute : Int
  next_run_time : String
  deriving Repr, DecidableEq

/-- Response of the `POST /schedule/{hour}/{minute}` handler.  `created`
is the HTTP 201 JSON body with its `message` and `schedule` fields.
`serverError` is an unhandled exception escaping the handler, which
FastAPI turns into an HTTP 500 response: `CronTrigger` raises
`ValueError` when `hour` is outside 0..23 or `minute` outside 0..59,
and the handler has no validation or exception handling of its own. -/
inductive SetScheduleResponse where
  | created (message : String) (schedule : String)
  | serverError (detail : String)
  deriving Repr, DecidableEq

/-- Python `format(n, "02d")`: pad a one-digit value to two digits. -/
def fmt2 (n : Int) : String :=
  if 0 ≤ n ∧ n < 10 then "0" ++ toString n else toString n

/-- Embedding of `set_schedule` (main.py lines 121-137).  The handler
first runs `scheduler.remove_all_jobs()` unconditionally, then builds a
`CronTrigger(hour=hour, minute=minute)`; the trigger constructor
validates the cron field ranges and raises `ValueError` when they are
out of range, so `add_job` runs only for in-range values.  `next_run`
is the next fire time APScheduler computes for the new job.  Returns
the job table after the call and the HTTP response. -/
def set_schedule (hour minute : Int) (next_run : String) (jobs : List Job) :
    List Job × SetScheduleResponse :=
  let cleared : List Job := []
  if 0 ≤ hour ∧ hour ≤ 23 ∧ 0 ≤ minute ∧ minute ≤ 59 then
    (cleared ++ [⟨"daily_quote", hour, minute, next_run⟩],
      .created
        ("Quote generation scheduled for " ++ fmt2 hour ++ ":" ++ fmt2 minute ++ " every day")
        (fmt2 hour ++ ":" ++ fmt2 minute))
  else
    (cleared, .serverError "ValueError from CronTrigger field validation")

/-- Response of the `GET /current-schedule` handler: either the explicit
no-schedule message, or the formatted next fire time together with the
schedule string rebuilt from the cron trigger fields. -/
inductive ScheduleResponse where
  | noSchedule (message : String)
  | info (next_run : String) (schedule : String)
  deriving Repr, DecidableEq

/-- Python `str(field.expressions[0])` for a cron field holding the single
value `n`: the decimal rendering of `n`, with no zero padding. -/
def cronExprStr (n : Int) : String := toString n

/-- Embedding of `get_schedule` (main.py lines 139-161): with no jobs,
return the explicit no-schedule message (and no time at all); otherwise
read the first job, format its next fire time, and rebuild the schedule
string from the hour and minute expressions of its cron trigger. -/
def get_schedule (jobs : List Job) : ScheduleResponse :=
  match jobs with
  | [] => .noSchedule "No scheduled quote generation"
  | job :: _ =>
    .info job.next_run_time (cronExprStr job.hour ++ ":" ++ cronExprStr job.minute)

/-- Concrete prompt index used by witnesses. -/
def pidx0 : Fin prompts.length := ⟨0, by decide⟩

/-- Concrete fallback index used by witnesses. -/
def fidx0 : Fin fallback_quotes.length := ⟨0, by decide⟩

/-- Concrete environment in which the outbound call always fails with a
timeout, used by witnesses. -/
def callFail : String → ApiOutcome := fun _ => .failure "ReadTimeout"

/-- Concrete stored quote used by witnesses. -/
def q0 : Quote := ⟨"q", "2026-01-01 00:00:00"⟩

/-- A full history of 30 entries, used by the eviction witness. -/
def hist30 : List Quote := List.replicate 30 q0

/-- Concrete two-entry history with increasing timestamps, used by the
monotonicity witness. -/
def histC8 : List Quote :=
  [⟨"a", "2026-01-01 08:00:00"⟩, ⟨"b", "2026-01-02 08:00:00"⟩]

/-- The history component of one generate-and-store step, written as the
append-then-conditionally-pop form used by the proofs. -/
lemma store_fst (h : List Quote) (pidx : Fin prompts.length)
    (call : String → ApiOutcome) (fidx : Fin fallback_quotes.length) (now : String) :
    (store_daily_quote h pidx call fidx now).1 =
      if (h ++ [(⟨generate_quote pidx call fidx, now⟩ : Quote)]).length > 30
      then (h ++ [(⟨generate_quote pidx call fidx, now⟩ : Quote)]).drop 1
      else h ++ [(⟨generate_quote pidx call fidx, now⟩ : Quote)] := rfl

/-- The history component of one generate-and-store step, stated with the
appended entry abbreviated as `genEntry`. -/
lemma store_fst_ctx (h : List Quote) (c : GenCtx) :
    (store_daily_quote h c.pidx c.call c.fidx c.now).1 =
      if (h ++ [genEntry c]).length > 30
      then (h ++ [genEntry c]).drop 1
      else h ++ [genEntry c] := rfl

/-- Unfolding one step of `runStore` at the end of the sequence. -/
lemma runStore_append (ctxs : List GenCtx) (c : GenCtx) :
    runStore (ctxs ++ [c]) =
      (store_daily_quote (runStore ctxs) c.pidx c.call c.fidx c.now).1 := by
  simp [runStore, List.foldl_append]

/-- Appending one element to the last-30 suffix of `E` and popping the
head when over capacity gives the last-30 suffix of `E ++ [q]`. -/
lemma boundedAppend {α : Type} (E : List α) (q : α) (d : Nat) (hd : d = E.length - 30) :
    (if (E.drop d ++ [q]).length > 30 then (E.drop d ++ [q]).drop 1 else E.drop d ++ [q])
      = (E ++ [q]).drop (E.length + 1 - 30) := by
  by_cases hn : 30 ≤ E.length
  · have h30 : (E.drop d).length = 30 := by
      rw [List.length_drop]; omega
    rw [if_pos (by simp [h30])]
    rw [List.drop_append_of_le_length (by omega : 1 ≤ (E.drop d).length)]
    rw [List.drop_drop]
    rw [List.drop_append_of_le_length (by omega : E.length + 1 - 30 ≤ E.length)]
    have : d + 1 = E.length + 1 - 30 := by omega
    rw [this]
  · have hd0 : d = 0 := by omega
    have hz : E.length + 1 - 30 = 0 := by omega
    rw [if_neg (by simp [List.length_drop]; omega)]
    rw [hd0, hz, List.drop_zero, List.drop_zero]

/-- The history after any sequence of generate-and-store operations is
the last-30 suffix of the full sequence of appended entries. -/
lemma runStore_eq (ctxs : List GenCtx) :
    runStore ctxs = (ctxs.map genEntry).drop (ctxs.length - 30) := by
  induction ctxs using List.reverseRecOn with
  | nil => rfl
  | append_singleton l c ih =>
    rw [runStore_append, ih, store_fst_ctx]
    have := boundedAppend (l.map genEntry) (genEntry c) (l.length - 30)
      (by rw [List.length_map])
    rw [List.length_map] at this
    rw [this]
    simp [List.length_append]

/-- The claim C1: starting from the empty history, N generate-and-store
operations leave exactly the last min(N, 30) appended entries, in append
order, so the length is min(N, 30); and an append at capacity 30 pops
exactly the oldest entry, turning e1..e30 into e2..e31. -/
theorem spec_C1 (ctxs : List GenCtx) :
    (runStore ctxs).length = min ctxs.length 30
    ∧ runStore ctxs = (ctxs.map genEntry).drop (ctxs.length - 30)
    ∧ ∀ (h : List Quote) (c : GenCtx), h.length = 30 →
        (store_daily_quote h c.pidx c.call c.fidx c.now).1 =
          h.drop 1 ++ [genEntry c] := by
  refine ⟨?_, runStore_eq ctxs, ?_⟩
  · rw [runStore_eq, List.length_drop, List.length_map]
    omega
  · intro h c hlen
    rw [store_fst_ctx]
    have hc : (h ++ [genEntry c]).length > 30 := by
      simp [hlen]
    rw [if_pos hc]
    rw [List.drop_append_of_le_length (by omega : 1 ≤ h.length)]

/-- Witness for C1: a concrete full history of 30 entries, on which one
generate-and-store step pops exactly the head entry. -/
theorem spec_C1_witness :
    hist30.length = 30
    ∧ (store_daily_quote hist30 pidx0 callFail fidx0 "2026-02-01 09:00:00").1 =
        hist30.drop 1 ++ [genEntry ⟨pidx0, callFail, fidx0, "2026-02-01 09:00:00"⟩] :=
  ⟨rfl, (spec_C1 []).2.2 hist30 ⟨pidx0, callFail, fidx0, "2026-02-01 09:00:00"⟩ rfl⟩

/-- Every fallback quote in the pool is a non-empty string. -/
lemma fallback_quotes_ne_empty : ∀ i : Fin fallback_quotes.length, fallback_quotes.get i ≠ "" := by
  decide

/-- The claim C2: whatever the outcome of the outbound call, the embedded
`generate_quote` is a total function (the Python code catches every
exception), and: on any failure it returns one of the fixed fallback
quotes, which is non-empty; on success it returns the extracted content
stripped of surrounding whitespace. -/
theorem spec_C2 (pidx : Fin prompts.length) (call : String → ApiOutcome)
    (fidx : Fin fallback_quotes.length) :
    (∀ msg, call (prompts.get pidx) = .failure msg →
        generate_quote pidx call fidx ∈ fallback_quotes
        ∧ generate_quote pidx call fidx ≠ "")
    ∧ (∀ content, call (prompts.get pidx) = .success content →
        generate_quote pidx call fidx = content.trim) := by
  constructor
  · intro msg hm
    unfold generate_quote
    rw [hm]
    exact ⟨List.get_mem _ _ _, fallback_quotes_ne_empty fidx⟩
  · intro content hc
    unfold generate_quote
    rw [hc]

/-- Witness for C2: in an environment where the call always times out,
`generate_quote` returns a fallback quote from the pool, and it is
non-empty. -/
theorem spec_C2_witness :
    callFail (prompts.get pidx0) = .failure "ReadTimeout"
    ∧ generate_quote pidx0 callFail fidx0 ∈ fallback_quotes
    ∧ generate_quote pidx0 callFail fidx0 ≠ "" :=
  ⟨rfl, (spec_C2 pidx0 callFail fidx0).1 "ReadTimeout" rfl⟩

/-- The claim C3: `GET /latest` on the empty history performs one
generation, appends exactly that one entry (the history length becomes
1), and returns that newly appended entry. -/
theorem spec_C3 (pidx : Fin prompts.length) (call : String → ApiOutcome)
    (fidx : Fin fallback_quotes.length) (now : String) :
    (get_latest_quote [] pidx call fidx now).1 =
        [⟨generate_quote pidx call fidx, now⟩]
    ∧ (get_latest_quote [] pidx call fidx now).1.length = 1
    ∧ (get_latest_quote [] pidx call fidx now).2 =
        some ⟨generate_quote pidx call fidx, now⟩ :=
  ⟨rfl, rfl, rfl⟩

/-- The claim C9: `GET /quotes` returns the history unchanged, and
`GET /latest` on a non-empty history leaves the history exactly as it
was. -/
theorem spec_C9 (h : List Quote) :
    get_quotes h = (h, h)
    ∧ ∀ (pidx : Fin prompts.length) (call : String → ApiOutcome)
        (fidx : Fin fallback_quotes.length) (now : String), h ≠ [] →
        (get_latest_quote h pidx call fidx now).1 = h := by
  refine ⟨rfl, ?_⟩
  intro pidx call fidx now hne
  simp [get_latest_quote, hne]

/-- Witness for C9: reading the latest entry of a concrete one-entry
history leaves it unchanged. -/
theorem spec_C9_witness :
    ([q0] : List Quote) ≠ []
    ∧ (get_latest_quote [q0] pidx0 callFail fidx0 "2026-02-01 09:00:00").1 = [q0] :=
  ⟨by decide, (spec_C9 [q0]).2 pidx0 callFail fidx0 "2026-02-01 09:00:00" (by decide)⟩

/-- The claim C10: the tail access at the end of `GET /latest` is always
in bounds: on every control path the history is non-empty when the
final index is taken, so `getLast?` always yields a value. -/
theorem spec_C10 (h : List Quote) (pidx : Fin prompts.length)
    (call : String → ApiOutcome) (fidx : Fin fallback_quotes.length) (now : String) :
    ((get_latest_quote h pidx call fidx now).2).isSome = true := by
  cases h with
  | nil => rfl
  | cons a t => simp [get_latest_quote, List.getLast?_isSome]

/-- The claim C4: two successive schedule updates with in-range values
leave exactly one active job, configured with the second pair, whatever
the prior job table was: the handler always removes every job before
adding the single new one. -/
theorem spec_C4 (h1 m1 h2 m2 : Int) (nr1 nr2 : String) (jobs : List Job)
    (hv1 : 0 ≤ h1 ∧ h1 ≤ 23 ∧ 0 ≤ m1 ∧ m1 ≤ 59)
    (hv2 : 0 ≤ h2 ∧ h2 ≤ 23 ∧ 0 ≤ m2 ∧ m2 ≤ 59) :
    (set_schedule h2 m2 nr2 (set_schedule h1 m1 nr1 jobs).1).1 =
      [⟨"daily_quote", h2, m2, nr2⟩] := by
  unfold set_schedule
  rw [if_pos hv2]
  rfl

/-- Witness for C4: setting 09:00 and then 14:30 from the empty job
table leaves the single 14:30 job. -/
theorem spec_C4_witness :
    ((0:Int) ≤ 9 ∧ (9:Int) ≤ 23 ∧ (0:Int) ≤ 0 ∧ (0:Int) ≤ 59)
    ∧ ((0:Int) ≤ 14 ∧ (14:Int) ≤ 23 ∧ (0:Int) ≤ 30 ∧ (30:Int) ≤ 59)
    ∧ (set_schedule 14 30 "2026-10-13 14:30:00"
          (set_schedule 9 0 "2026-10-13 09:00:00" []).1).1 =
        [⟨"daily_quote", 14, 30, "2026-10-13 14:30:00"⟩] :=
  ⟨by decide, by decide,
    spec_C4 9 0 14 30 "2026-10-13 09:00:00" "2026-10-13 14:30:00" []
      (by decide) (by decide)⟩

/-- Evaluation of the schedule-update handler at the out-of-range input
hour=25, minute=0, starting from the default 09:00 job: the handler is
not rejected at the API boundary; it first clears the whole job table,
and the out-of-range value then raises inside the handler, surfacing as
a server error (HTTP 500), not a client error.  The scheduler state has
already been mutated (the previously active job is gone). -/
theorem spec_C5_code_bug :
    set_schedule 25 0 "2026-10-13 09:00:00"
        [⟨"daily_quote", 9, 0, "2026-10-13 09:00:00"⟩]
      = ([], .serverError "ValueError from CronTrigger field validation")
    ∧ ([] : List Job) ≠ [⟨"daily_quote", 9, 0, "2026-10-13 09:00:00"⟩] := by
  constructor
  · decide
  · decide

/-- The claim C6: after set_schedule(14, 30) the 201 response echoes the
schedule "14:30", and until a further set call the get-schedule handler
reports that job with schedule string "14:30" and the next fire time the
scheduler computed for it. -/
theorem spec_C6 (nr : String) (jobs : List Job) :
    (set_schedule 14 30 nr jobs).2 =
        .created "Quote generation scheduled for 14:30 every day" "14:30"
    ∧ get_schedule (set_schedule 14 30 nr jobs).1 = .info nr "14:30" :=
  ⟨rfl, rfl⟩

/-- The claim C7: with no job in the table, get-schedule answers the
explicit no-schedule message, which carries no time at all; with a job
present, it reports that job's next fire time and its configured hour
and minute; in particular any in-range set_schedule call yields a state
in which get-schedule reports exactly the configured pair. -/
theorem spec_C7 :
    get_schedule [] = .noSchedule "No scheduled quote generation"
    ∧ (∀ (j : Job) (rest : List Job),
        get_schedule (j :: rest) =
          .info j.next_run_time (cronExprStr j.hour ++ ":" ++ cronExprStr j.minute))
    ∧ ∀ (hour minute : Int) (nr : String) (jobs : List Job),
        (0 ≤ hour ∧ hour ≤ 23 ∧ 0 ≤ minute ∧ minute ≤ 59) →
        get_schedule (set_schedule hour minute nr jobs).1 =
          .info nr (cronExprStr hour ++ ":" ++ cronExprStr minute) := by
  refine ⟨rfl, fun j rest => rfl, ?_⟩
  intro hour minute nr jobs hv
  unfold set_schedule
  rw [if_pos hv]
  rfl

/-- Witness for C7: after scheduling 07:05 the get-schedule handler
reports the configured pair, rendered without zero padding. -/
theorem spec_C7_witness :
    ((0:Int) ≤ 7 ∧ (7:Int) ≤ 23 ∧ (0:Int) ≤ 5 ∧ (5:Int) ≤ 59)
    ∧ get_schedule (set_schedule 7 5 "2026-10-14 07:05:00" []).1 =
        .info "2026-10-14 07:05:00" (cronExprStr 7 ++ ":" ++ cronExprStr 5) :=
  ⟨by decide, spec_C7.2.2 7 5 "2026-10-14 07:05:00" [] (by decide)⟩

/-- Appending a value that dominates every element of a non-decreasing
list of timestamps keeps the list non-decreasing. -/
lemma chain_le_append (ts : List String) (now : String)
    (hc : List.Chain' (fun a b => a ≤ b) ts) (hall : ∀ t ∈ ts, t ≤ now) :
    List.Chain' (fun a b => a ≤ b) (ts ++ [now]) := by
  rw [List.chain'_append]
  refine ⟨hc, List.chain'_singleton now, ?_⟩
  intro x hx y hy
  have hyn : now = y := by simpa using hy
  subst hyn
  exact hall x (List.mem_of_mem_getLast? hx)

/-- The timestamps of a history, oldest first. -/
def stamps (h : List Quote) : List String := h.map Quote.timestamp

/-- The claim C8: timestamps are assigned from the process clock at
append time, and as long as the wall clock reading is at least every
timestamp already stored (the clock is non-decreasing), both append
paths (the scheduled or manual generate-and-store and the
generate-on-empty path of `GET /latest`) preserve the invariant that
the stored timestamps are non-decreasing in sequence order. -/
theorem spec_C8 (h : List Quote) (pidx : Fin prompts.length)
    (call : String → ApiOutcome) (fidx : Fin fallback_quotes.length) (now : String)
    (hc : List.Chain' (fun a b => a ≤ b) (stamps h))
    (hall : ∀ e ∈ h, e.timestamp ≤ now) :
    List.Chain' (fun a b => a ≤ b) (stamps (store_daily_quote h pidx call fidx now).1)
    ∧ (store_daily_quote h pidx call fidx now).2.timestamp = now
    ∧ List.Chain' (fun a b => a ≤ b) (stamps (get_latest_quote h pidx call fidx now).1) := by
  have hfull : List.Chain' (fun a b => a ≤ b)
      (stamps (h ++ [(⟨generate_quote pidx call fidx, now⟩ : Quote)])) := by
    unfold stamps
    rw [List.map_append]
    refine chain_le_append _ _ hc ?_
    intro t ht
    obtain ⟨e, he, rfl⟩ := List.mem_map.1 ht
    exact hall e he
  refine ⟨?_, rfl, ?_⟩
  · rw [store_fst]
    by_cases hn : (h ++ [(⟨generate_quote pidx call fidx, now⟩ : Quote)]).length > 30
    · rw [if_pos hn]
      unfold stamps at hfull ⊢
      rw [List.map_drop, List.drop_one]
      exact hfull.tail
    · rw [if_neg hn]
      exact hfull
  · cases h with
    | nil =>
      simp [get_latest_quote, stamps]
    | cons a t =>
      simpa [get_latest_quote] using hc

/-- Witness for C8: appending with a later clock reading to a concrete
two-entry history with increasing timestamps keeps the stored
timestamps non-decreasing. -/
theorem spec_C8_witness :
    List.Chain' (fun a b => a ≤ b) (stamps histC8)
    ∧ List.Chain' (fun a b => a ≤ b)
        (stamps (store_daily_quote histC8 pidx0 callFail fidx0 "2026-01-03 08:00:00").1) := by
  have h1 : ("2026-01-01 08:00:00" : String) ≤ "2026-01-02 08:00:00" := by
    rw [String.le_iff_toList_le]; decide
  have h2 : ("2026-01-01 08:00:00" : String) ≤ "2026-01-03 08:00:00" := by
    rw [String.le_iff_toList_le]; decide
  have h3 : ("2026-01-02 08:00:00" : String) ≤ "2026-01-03 08:00:00" := by
    rw [String.le_iff_toList_le]; decide
  have hc : List.Chain' (fun a b => a ≤ b) (stamps histC8) :=
    List.chain'_cons.2 ⟨h1, List.chain'_singleton _⟩
  have hall : ∀ e ∈ histC8, e.timestamp ≤ "2026-01-03 08:00:00" := by
    intro e he
    have : e = (⟨"a", "2026-01-01 08:00:00"⟩ : Quote)
        ∨ e = (⟨"b", "2026-01-02 08:00:00"⟩ : Quote) := by
      simpa [histC8] using he
    rcases this with rfl | rfl
    · exact h2
    · exact h3
  exact ⟨hc, (spec_C8 histC8 pidx0 callFail fidx0 "2026-01-03 08:00:00" hc hall).1⟩

end DatingApp
